import Mathlib

/-!
Verification of the Kimera-RPGO `RobustSolver` orchestration layer
(`src/RobustSolver.cpp`) against its natural-language specification.

The solver is embedded shallowly: the mutable members of `RobustSolver`
(and of its base `GenericSolver`) become fields of a Lean structure, each
public method becomes a state-transforming function, and effects the C++
performs through the process environment (diagnostic logging, `exit`,
writing the stats files, dereferencing a null strategy pointer) are made
explicit in the result type. External collaborators — the GTSAM optimizer
backends and the pluggable outlier-rejection strategies — are opaque to the
orchestration code and are passed in as records of functions, exactly as
they are invoked from `RobustSolver.cpp`.
-/

namespace KimeraRpgo

/-- Provenance tag of a factor (spec §3: odometry, intra-robot loop closure,
inter-robot loop closure, landmark measurement, prior). -/
inductive FactorTag where
  | odom
  | loopClosure
  | multirobotLc
  | landmark
  | priorF
deriving DecidableEq, Repr

/-- A factor: a measurement constraint, abstracted to its provenance tag and
an identity. Factors are immutable once created (spec §3). -/
structure Factor where
  tag : FactorTag
  uid : Nat
deriving DecidableEq, Repr

/-- A variable key: (prefix character, index) pair (spec §3). -/
abbrev Key := Char × Nat

/-- A value assignment (`gtsam::Values`): keys with abstract estimates. -/
abbrev Values := List (Key × Int)

/-- An observation-stream identifier: the pair of prefixes a loop closure
belongs to (`ObservationId(prefix_1, prefix_2)`). -/
structure ObservationId where
  first : Char
  second : Char
deriving DecidableEq, Repr

/-- Rejection statistics (`Stats` read via `getRejectionStats()`): the seven
counters written to `log.txt` plus the consistency-error sequence written to
`error.txt`. Scalar error values are abstracted to `Int`. -/
structure Stats where
  lc : Nat
  good_lc : Nat
  odom_consistent_lc : Nat
  multirobot_lc : Nat
  good_multirobot_lc : Nat
  landmark_measurements : Nat
  good_landmark_measurements : Nat
  consistency_error : List Int
deriving DecidableEq, Repr

/-- Observable side effects of a call: an optimizer-backend invocation, a
diagnostic warning (`log<WARNING>`), or an informational message (`log<INFO>`). -/
inductive Event where
  | optimized
  | warned (msg : String)
  | info (msg : String)
deriving DecidableEq, Repr

/-- One line of a log file: a header line with its text, a `log.txt` data
line (its numeric fields in written order), or an `error.txt` data line
(the consistency-error scalars of one update). -/
inductive FileLine where
  | headerText (t : String)
  | logData (fields : List Int)
  | errData (errs : List Int)
deriving DecidableEq, Repr

/-- Outcome of a public operation. `fatalExit` models `log<WARNING>` followed
by `exit(EXIT_FAILURE)` (the diagnostic is carried); `undefinedBehavior`
models a dereference of the absent (null) outlier-rejection strategy. -/
inductive ExecResult (α : Type) where
  | ok (a : α) (events : List Event)
  | fatalExit (diag : String)
  | undefinedBehavior (desc : String)

/-- The nonlinear solver mode (`Solver` enum of `GenericSolver`). `DOGLEG`
stands for any enum value other than `LM` and `GN`; `RobustSolver::optimize`
dispatches only on `LM` and `GN` and treats everything else as fatal. -/
inductive Solver where
  | LM
  | GN
  | DOGLEG
deriving DecidableEq, Repr

/-- `OutlierRemovalMethod`: the five enumerators the constructor's switch
names, plus `UNKNOWN` standing for any other value of the underlying enum
(the value the `default:` branch of the switch receives). -/
inductive OutlierRemovalMethod where
  | NONE
  | PCM2D
  | PCM3D
  | PCM_Simple2D
  | PCM_Simple3D
  | UNKNOWN
deriving DecidableEq, Repr

/-- `Verbosity`: the three enumerators the constructor's switch names, plus
`UNKNOWN` standing for any unrecognized value (the `default:` branch). -/
inductive Verbosity where
  | UPDATE
  | QUIET
  | VERBOSE
  | UNKNOWN
deriving DecidableEq, Repr

/-- An outlier-rejection strategy instance (the object behind the
`outlier_removal_` pointer). Its internal bookkeeping is abstracted to a
`Nat` state threaded through its methods; the methods receive exactly the
data `RobustSolver.cpp` passes them: `removeOutliers` gets the new batch and
mutable access to both `nfg_` and `values_`, the loop-closure lifecycle
operations get mutable access to `nfg_` only. -/
structure OutlierRemoval where
  quiet : Bool
  internal : Nat
  removeOutliersFn :
    Nat → List Factor → Values → List Factor → Values →
      Bool × List Factor × Values × Nat
  removeLastLoopClosureScopedFn :
    Nat → ObservationId → List Factor → Option Factor × List Factor × Nat
  removeLastLoopClosureFn :
    Nat → List Factor → Option Factor × List Factor × Nat
  ignoreLoopClosureWithPrefixFn : Nat → Char → List Factor → List Factor × Nat
  reviveLoopClosureWithPrefixFn : Nat → Char → List Factor → List Factor × Nat
  getIgnoredPrefixesFn : Nat → List Char
  getRejectionStatsFn : Nat → Stats

/-- `setQuiet()` on a strategy: suppress its diagnostics. -/
def OutlierRemoval.setQuiet (orm : OutlierRemoval) : OutlierRemoval :=
  { orm with quiet := true }

/-- The optimizer backend (GTSAM), opaque to the orchestration layer:
Levenberg-Marquardt and Gauss-Newton solves over the current graph and
values, and the total graph error `nfg_.error(values_)`. -/
structure Backend where
  lmOptimize : List Factor → Values → Values
  gnOptimize : List Factor → Values → Values
  graphError : List Factor → Values → Int

/-- The solver state: `GenericSolver`'s members (`solver_type_`, `debug_`,
`nfg_`, `values_`) and `RobustSolver`'s (`outlier_removal_`, `log_`,
`log_path_`), plus the contents of the two stats files the solver writes at
`log_path_` (made part of the state so that file effects are provable). -/
structure RobustSolver where
  solver_type_ : Solver
  debug_ : Bool
  outlier_removal_ : Option OutlierRemoval
  nfg_ : List Factor
  values_ : Values
  log_ : Bool
  log_path_ : String
  logFile : List FileLine
  errorFile : List FileLine

/-- Modelled from the spec: `GenericSolver::setQuiet` is declared in this
repository's headers but its definition is not in the source fragment.
Spec §4.1: quiet "suppresses both solver and strategy diagnostics"; the
solver's own diagnostics are gated on `debug_` in `optimize()`. -/
def RobustSolver.setQuiet (s : RobustSolver) : RobustSolver :=
  { s with debug_ := false }

/-- Constructor parameters (`RobustSolverParams`), with the threshold doubles
abstracted to `Int` (they are only forwarded to strategy construction). -/
structure RobustSolverParams where
  solver : Solver
  specialSymbols : List Char
  outlierRemovalMethod : OutlierRemovalMethod
  pcm_odomThreshold : Int
  pcm_lcThreshold : Int
  pcmDist_transThreshold : Int
  pcmDist_rotThreshold : Int
  verbosity : Verbosity

/-- The four strategy constructors the `RobustSolver` constructor can invoke
(`Pcm2D`, `Pcm3D`, `PcmSimple2D`, `PcmSimple3D`); their internals are
external collaborators, so they are passed in as functions of the same
arguments the constructor forwards. -/
structure StrategyFactory where
  pcm2D : Int → Int → List Char → OutlierRemoval
  pcm3D : Int → Int → List Char → OutlierRemoval
  pcmSimple2D : Int → Int → List Char → OutlierRemoval
  pcmSimple3D : Int → Int → List Char → OutlierRemoval

/-- Modelled from the spec: `GenericSolver::removeLastFactor` is declared in
this repository's headers but its definition is not in the source fragment.
Spec §4.4: "fall back to removing the single most-recently-appended factor
in the whole graph"; returns the removed factor or an empty result. -/
def removeLastFactor (nfg : List Factor) : Option Factor × List Factor :=
  match nfg.getLast? with
  | none => (none, nfg)
  | some f => (some f, nfg.dropLast)

/-- Modelled from the spec: `GenericSolver::addAndCheckIfOptimize` is
declared in this repository's headers but its definition is not in the
source fragment. Spec §4.2 (no-strategy path): "every factor/value is
admitted unconditionally, and re-optimization is requested immediately after
each call whose batch was non-trivial ... must trigger on any non-odometry
addition". Returns the should-optimize boolean and the grown graph state. -/
def addAndCheckIfOptimize (factors : List Factor) (values : Values)
    (nfg : List Factor) (vals : Values) : Bool × List Factor × Values :=
  (factors.any (fun f => f.tag ≠ FactorTag.odom), nfg ++ factors, vals ++ values)

/-- `RobustSolver::RobustSolver` (lines 26-80): dispatch on the outlier
removal method (the `default:` branch warns and exits), then apply the
verbosity switch. The graph state starts empty; `debug_` starts true (only
`QUIET` suppresses the solver's own diagnostics). -/
def construct (fac : StrategyFactory) (params : RobustSolverParams) :
    ExecResult RobustSolver :=
  match
    (match params.outlierRemovalMethod with
     | OutlierRemovalMethod.NONE => ExecResult.ok (none : Option OutlierRemoval) []
     | OutlierRemovalMethod.PCM2D =>
         ExecResult.ok (some (fac.pcm2D params.pcm_odomThreshold
           params.pcm_lcThreshold params.specialSymbols)) []
     | OutlierRemovalMethod.PCM3D =>
         ExecResult.ok (some (fac.pcm3D params.pcm_odomThreshold
           params.pcm_lcThreshold params.specialSymbols)) []
     | OutlierRemovalMethod.PCM_Simple2D =>
         ExecResult.ok (some (fac.pcmSimple2D params.pcmDist_transThreshold
           params.pcmDist_rotThreshold params.specialSymbols)) []
     | OutlierRemovalMethod.PCM_Simple3D =>
         ExecResult.ok (some (fac.pcmSimple3D params.pcmDist_transThreshold
           params.pcmDist_rotThreshold params.specialSymbols)) []
     | OutlierRemovalMethod.UNKNOWN =>
         ExecResult.fatalExit "Undefined outlier removal method") with
  | ExecResult.fatalExit d => ExecResult.fatalExit d
  | ExecResult.undefinedBehavior d => ExecResult.undefinedBehavior d
  | ExecResult.ok orm _ =>
    let s0 : RobustSolver :=
      { solver_type_ := params.solver
        debug_ := true
        outlier_removal_ := orm
        nfg_ := []
        values_ := []
        log_ := false
        log_path_ := ""
        logFile := []
        errorFile := [] }
    match params.verbosity with
    | Verbosity.UPDATE =>
        ExecResult.ok
          { s0 with outlier_removal_ := s0.outlier_removal_.map OutlierRemoval.setQuiet } []
    | Verbosity.QUIET =>
        ExecResult.ok
          (RobustSolver.setQuiet
            { s0 with outlier_removal_ := s0.outlier_removal_.map OutlierRemoval.setQuiet }) []
    | Verbosity.VERBOSE =>
        ExecResult.ok s0 [Event.info "Starting RobustSolver."]
    | Verbosity.UNKNOWN =>
        ExecResult.ok s0
          [Event.warned "Unrecognized verbosity. Automatically setting to UPDATE."]

/-- `RobustSolver::optimize` (lines 82-103): LM and GN replace `values_`
with the backend's result (the `if (debug_)` diagnostics become `info`
events); any other solver mode warns and exits. -/
def optimize (be : Backend) (s : RobustSolver) : ExecResult RobustSolver :=
  if s.solver_type_ = Solver.LM then
    ExecResult.ok { s with values_ := be.lmOptimize s.nfg_ s.values_ }
      ((if s.debug_ then [Event.info "Running LM"] else []) ++ [Event.optimized])
  else if s.solver_type_ = Solver.GN then
    ExecResult.ok { s with values_ := be.gnOptimize s.nfg_ s.values_ }
      ((if s.debug_ then [Event.info "Running GN"] else []) ++ [Event.optimized])
  else
    ExecResult.fatalExit "Unsupported Solver"

/-- The admission step shared verbatim by `update` (lines 118-124) and
`forceUpdate` (lines 107-111): delegate the batch to the strategy when one
is configured, else admit unconditionally through
`addAndCheckIfOptimize`. Returns the should-optimize boolean and the
post-admission state. -/
def admission (factors : List Factor) (values : Values) (s : RobustSolver) :
    Bool × RobustSolver :=
  match s.outlier_removal_ with
  | some orm =>
    let r := orm.removeOutliersFn orm.internal factors values s.nfg_ s.values_
    (r.1, { s with
            nfg_ := r.2.1
            values_ := r.2.2.1
            outlier_removal_ := some { orm with internal := r.2.2.2 } })
  | none =>
    let r := addAndCheckIfOptimize factors values s.nfg_ s.values_
    (r.1, { s with nfg_ := r.2.1, values_ := r.2.2 })

/-- The eight numeric fields of one `log.txt` data line, in the order the
source writes them (line 134-138): the seven rejection counters, then the
current total graph error. -/
def logLineFields (stats : Stats) (err : Int) : List Int :=
  [Int.ofNat stats.lc, Int.ofNat stats.good_lc,
   Int.ofNat stats.odom_consistent_lc, Int.ofNat stats.multirobot_lc,
   Int.ofNat stats.good_multirobot_lc, Int.ofNat stats.landmark_measurements,
   Int.ofNat stats.good_landmark_measurements, err]

/-- The diagnosis carried by the `undefinedBehavior` outcome of the logging
branch: `update` reads `outlier_removal_->getRejectionStats()` without
checking the pointer (line 128). -/
def nullStatsMsg : String :=
  "null dereference: outlier_removal_ read for rejection stats while absent"

/-- The logging tail of `update` (lines 127-146): when `log_` is set, read
the strategy's rejection stats — a null dereference when no strategy is
configured — and append one data line to each of `log.txt` and `error.txt`. -/
def logAppend (be : Backend) (s2 : RobustSolver) (ev : List Event) :
    ExecResult RobustSolver :=
  if s2.log_ then
    match s2.outlier_removal_ with
    | none => ExecResult.undefinedBehavior nullStatsMsg
    | some orm =>
      ExecResult.ok
        { s2 with
          logFile := s2.logFile ++
            [FileLine.logData (logLineFields (orm.getRejectionStatsFn orm.internal)
              (be.graphError s2.nfg_ s2.values_))]
          errorFile := s2.errorFile ++
            [FileLine.errData (orm.getRejectionStatsFn orm.internal).consistency_error] }
        ev
  else
    ExecResult.ok s2 ev

/-- `RobustSolver::update` (lines 116-148): admission, conditional
optimization, then the logging tail. -/
def update (be : Backend) (factors : List Factor) (values : Values)
    (s : RobustSolver) : ExecResult RobustSolver :=
  match
    (if (admission factors values s).1 then optimize be (admission factors values s).2
     else ExecResult.ok (admission factors values s).2 []) with
  | ExecResult.ok s2 ev => logAppend be s2 ev
  | ExecResult.fatalExit d => ExecResult.fatalExit d
  | ExecResult.undefinedBehavior d => ExecResult.undefinedBehavior d

/-- `RobustSolver::forceUpdate` (lines 105-114): the same admission step,
then an unconditional `optimize()`; no logging tail. -/
def forceUpdate (be : Backend) (factors : List Factor) (values : Values)
    (s : RobustSolver) : ExecResult RobustSolver :=
  optimize be (admission factors values s).2

/-- The removal step of `removeLastLoopClosure(prefix_1, prefix_2)`
(lines 150-158): delegate to the strategy (which receives `nfg_` only) or
fall back to `removeLastFactor`. -/
def removalPhaseScoped (p1 p2 : Char) (s : RobustSolver) :
    Option Factor × RobustSolver :=
  match s.outlier_removal_ with
  | some orm =>
    let q := orm.removeLastLoopClosureScopedFn orm.internal (ObservationId.mk p1 p2) s.nfg_
    (q.1, { s with
            nfg_ := q.2.1
            outlier_removal_ := some { orm with internal := q.2.2 } })
  | none =>
    let q := removeLastFactor s.nfg_
    (q.1, { s with nfg_ := q.2 })

/-- The removal step of the unscoped `removeLastLoopClosure()`
(lines 164-171). -/
def removalPhase (s : RobustSolver) : Option Factor × RobustSolver :=
  match s.outlier_removal_ with
  | some orm =>
    let q := orm.removeLastLoopClosureFn orm.internal s.nfg_
    (q.1, { s with
            nfg_ := q.2.1
            outlier_removal_ := some { orm with internal := q.2.2 } })
  | none =>
    let q := removeLastFactor s.nfg_
    (q.1, { s with nfg_ := q.2 })

/-- `RobustSolver::removeLastLoopClosure(char, char)` (lines 150-162):
removal step, then `optimize()`, returning the removed edge. -/
def removeLastLoopClosureScoped (be : Backend) (p1 p2 : Char)
    (s : RobustSolver) : ExecResult (Option Factor × RobustSolver) :=
  match optimize be (removalPhaseScoped p1 p2 s).2 with
  | ExecResult.ok s2 ev => ExecResult.ok ((removalPhaseScoped p1 p2 s).1, s2) ev
  | ExecResult.fatalExit d => ExecResult.fatalExit d
  | ExecResult.undefinedBehavior d => ExecResult.undefinedBehavior d

/-- `RobustSolver::removeLastLoopClosure()` (lines 164-175). -/
def removeLastLoopClosure (be : Backend) (s : RobustSolver) :
    ExecResult (Option Factor × RobustSolver) :=
  match optimize be (removalPhase s).2 with
  | ExecResult.ok s2 ev => ExecResult.ok ((removalPhase s).1, s2) ev
  | ExecResult.fatalExit d => ExecResult.fatalExit d
  | ExecResult.undefinedBehavior d => ExecResult.undefinedBehavior d

/-- The diagnostic of `ignorePrefix` without a strategy (lines 181-183). -/
def ignorePrefixWarning : String :=
  "ignorePrefix currently not implemented for no outlier rejection case"

/-- The diagnostic of `revivePrefix` and `getIgnoredPrefixes` without a
strategy (lines 194-196 and 207-209). -/
def revivePrefixWarning : String :=
  "revivePrefix and ignorePrefix currently not implemented for no outlier rejection case"

/-- `RobustSolver::ignorePrefix` (lines 177-188): delegate to the strategy
or warn; `optimize()` either way. -/
def ignorePrefix (be : Backend) (p : Char) (s : RobustSolver) :
    ExecResult RobustSolver :=
  match s.outlier_removal_ with
  | some orm =>
    optimize be
      { s with nfg_ := (orm.ignoreLoopClosureWithPrefixFn orm.internal p s.nfg_).1
               outlier_removal_ :=
                 some { orm with internal := (orm.ignoreLoopClosureWithPrefixFn orm.internal p s.nfg_).2 } }
  | none =>
    match optimize be s with
    | ExecResult.ok s2 ev => ExecResult.ok s2 (Event.warned ignorePrefixWarning :: ev)
    | r => r

/-- `RobustSolver::revivePrefix` (lines 190-201). -/
def revivePrefix (be : Backend) (p : Char) (s : RobustSolver) :
    ExecResult RobustSolver :=
  match s.outlier_removal_ with
  | some orm =>
    optimize be
      { s with nfg_ := (orm.reviveLoopClosureWithPrefixFn orm.internal p s.nfg_).1
               outlier_removal_ :=
                 some { orm with internal := (orm.reviveLoopClosureWithPrefixFn orm.internal p s.nfg_).2 } }
  | none =>
    match optimize be s with
    | ExecResult.ok s2 ev => ExecResult.ok s2 (Event.warned revivePrefixWarning :: ev)
    | r => r

/-- `RobustSolver::getIgnoredPrefixes` (lines 203-213): the strategy's list,
or an empty result with a diagnostic; no optimization, no state change.
Returns (result, solver after the call, events). -/
def getIgnoredPrefixes (s : RobustSolver) :
    List Char × RobustSolver × List Event :=
  match s.outlier_removal_ with
  | some orm => (orm.getIgnoredPrefixesFn orm.internal, s, [])
  | none => ([], s, [Event.warned revivePrefixWarning])

/-- The header line of `log.txt` (lines 230-233). -/
def logHeaderText : String :=
  "#lc #good-lc #odom-consistent-lc #multirobot-lc #good-multirobot-lc #ldmrk-measurements #good-ldmrk-measurements #error"

/-- The header line of `error.txt` (line 239). -/
def errHeaderText : String := "#consistency-error"

/-- `RobustSolver::enableLogging` (lines 223-241): set `log_` and the path,
and (re)initialize both files to exactly their header line (the files are
opened without the append flag, so prior content is truncated). -/
def enableLogging (path : String) (s : RobustSolver) : RobustSolver :=
  { s with log_ := true
           log_path_ := path
           logFile := [FileLine.headerText logHeaderText]
           errorFile := [FileLine.headerText errHeaderText] }

/-! ### Concrete instances used to evaluate the model -/

/-- A concrete strategy instance exercising the §6 capability set: admits
every batch and always requests optimization, removes the last factor for
the lifecycle operations, and counts updates in its internal state.
Constructed non-quiet (diagnostics stay enabled until `setQuiet`). -/
def trivialStrategy : OutlierRemoval where
  quiet := false
  internal := 0
  removeOutliersFn := fun i fs vs nfg vals => (true, nfg ++ fs, vals ++ vs, i + 1)
  removeLastLoopClosureScopedFn := fun i _ nfg =>
    ((removeLastFactor nfg).1, (removeLastFactor nfg).2, i)
  removeLastLoopClosureFn := fun i nfg =>
    ((removeLastFactor nfg).1, (removeLastFactor nfg).2, i)
  ignoreLoopClosureWithPrefixFn := fun i _ nfg => (nfg, i)
  reviveLoopClosureWithPrefixFn := fun i _ nfg => (nfg, i)
  getIgnoredPrefixesFn := fun _ => []
  getRejectionStatsFn := fun i =>
    { lc := i, good_lc := i, odom_consistent_lc := 0, multirobot_lc := 0,
      good_multirobot_lc := 0, landmark_measurements := 0,
      good_landmark_measurements := 0, consistency_error := [1] }

/-- A factory producing `trivialStrategy` for each of the four methods. -/
def testFactory : StrategyFactory where
  pcm2D := fun _ _ _ => trivialStrategy
  pcm3D := fun _ _ _ => trivialStrategy
  pcmSimple2D := fun _ _ _ => trivialStrategy
  pcmSimple3D := fun _ _ _ => trivialStrategy

/-- A concrete optimizer backend: LM shifts every estimate by one, GN is the
identity, and the graph error is the factor count. -/
def testBackend : Backend where
  lmOptimize := fun _ vals => vals.map (fun q => (q.1, q.2 + 1))
  gnOptimize := fun _ vals => vals
  graphError := fun nfg _ => Int.ofNat nfg.length

/-- A concrete odometry factor. -/
def odomF : Factor := { tag := FactorTag.odom, uid := 0 }

/-- A concrete loop-closure factor. -/
def lcF : Factor := { tag := FactorTag.loopClosure, uid := 1 }

/-- A concrete key/value entry. -/
def kv : Key × Int := (('a', 0), 5)

/-- A solver with no outlier-rejection strategy, LM mode, one odometry
factor in the graph. -/
def solverNone : RobustSolver where
  solver_type_ := Solver.LM
  debug_ := true
  outlier_removal_ := none
  nfg_ := [odomF]
  values_ := [kv]
  log_ := false
  log_path_ := ""
  logFile := []
  errorFile := []

/-- `solverNone` with the concrete strategy configured. -/
def solverStrat : RobustSolver :=
  { solverNone with outlier_removal_ := some trivialStrategy }

/-- `solverNone` in an unsupported solver mode. -/
def sDogleg : RobustSolver := { solverNone with solver_type_ := Solver.DOGLEG }

/-- Parameters: no outlier removal, LM, quiet. -/
def pNone : RobustSolverParams where
  solver := Solver.LM
  specialSymbols := []
  outlierRemovalMethod := OutlierRemovalMethod.NONE
  pcm_odomThreshold := 0
  pcm_lcThreshold := 0
  pcmDist_transThreshold := 0
  pcmDist_rotThreshold := 0
  verbosity := Verbosity.QUIET

/-- `pNone` with an out-of-enumeration outlier removal method. -/
def pUnknownMethod : RobustSolverParams :=
  { pNone with outlierRemovalMethod := OutlierRemovalMethod.UNKNOWN }

/-- PCM2D with an unrecognized verbosity value. -/
def pPcmUnknownVerb : RobustSolverParams :=
  { pNone with
    outlierRemovalMethod := OutlierRemovalMethod.PCM2D
    verbosity := Verbosity.UNKNOWN }

/-- PCM2D with the default (`UPDATE`) verbosity. -/
def pPcmUpdateVerb : RobustSolverParams :=
  { pNone with
    outlierRemovalMethod := OutlierRemovalMethod.PCM2D
    verbosity := Verbosity.UPDATE }

/-! ### Shared lemmas about the orchestration steps -/

/-- What a successful `optimize` call guarantees: an optimizer invocation is
recorded, only `values_` changes, and the new values are the dispatched
backend's result. -/
theorem optimize_ok (be : Backend) (s t : RobustSolver) (ev : List Event)
    (h : optimize be s = ExecResult.ok t ev) :
    Event.optimized ∈ ev ∧ t.nfg_ = s.nfg_ ∧ t.log_ = s.log_ ∧
    t.logFile = s.logFile ∧ t.errorFile = s.errorFile ∧
    t.outlier_removal_ = s.outlier_removal_ ∧
    ((s.solver_type_ = Solver.LM ∧ t.values_ = be.lmOptimize s.nfg_ s.values_) ∨
     (s.solver_type_ = Solver.GN ∧ t.values_ = be.gnOptimize s.nfg_ s.values_)) := by
  unfold optimize at h
  split at h
  · cases h
    exact ⟨by simp, rfl, rfl, rfl, rfl, rfl, Or.inl ⟨by assumption, rfl⟩⟩
  · split at h
    · cases h
      exact ⟨by simp, rfl, rfl, rfl, rfl, rfl, Or.inr ⟨by assumption, rfl⟩⟩
    · simp at h

/-- What a successful logging tail guarantees: the events pass through and
the graph state is untouched (only the files may grow). -/
theorem logAppend_ok (be : Backend) (s2 t : RobustSolver) (ev ev' : List Event)
    (h : logAppend be s2 ev = ExecResult.ok t ev') :
    ev' = ev ∧ t.values_ = s2.values_ ∧ t.nfg_ = s2.nfg_ ∧
    t.outlier_removal_ = s2.outlier_removal_ ∧ t.log_ = s2.log_ := by
  unfold logAppend at h
  split at h
  · split at h
    · simp at h
    · cases h
      exact ⟨rfl, rfl, rfl, rfl, rfl⟩
  · cases h
    exact ⟨rfl, rfl, rfl, rfl, rfl⟩

/-- The admission step touches only the graph state and the strategy's
bookkeeping: logging configuration, files and solver mode are unchanged. -/
theorem admission_frame (factors : List Factor) (values : Values)
    (s : RobustSolver) :
    (admission factors values s).2.log_ = s.log_ ∧
    (admission factors values s).2.logFile = s.logFile ∧
    (admission factors values s).2.errorFile = s.errorFile ∧
    (admission factors values s).2.solver_type_ = s.solver_type_ ∧
    (admission factors values s).2.debug_ = s.debug_ := by
  unfold admission
  cases h : s.outlier_removal_ <;> simp

/-- The logging tail with logging on and a strategy configured: exactly one
data line is appended to each file. -/
theorem logAppend_log_some (be : Backend) (s2 : RobustSolver) (ev : List Event)
    (orm2 : OutlierRemoval) (hl : s2.log_ = true)
    (ho : s2.outlier_removal_ = some orm2) :
    logAppend be s2 ev = ExecResult.ok
      { s2 with
        logFile := s2.logFile ++
          [FileLine.logData (logLineFields (orm2.getRejectionStatsFn orm2.internal)
            (be.graphError s2.nfg_ s2.values_))]
        errorFile := s2.errorFile ++
          [FileLine.errData (orm2.getRejectionStatsFn orm2.internal).consistency_error] }
      ev := by
  unfold logAppend
  rw [hl, ho]
  rfl

/-- The logging tail with logging on and no strategy: the null strategy
pointer is dereferenced. -/
theorem logAppend_log_none (be : Backend) (s2 : RobustSolver) (ev : List Event)
    (hl : s2.log_ = true) (ho : s2.outlier_removal_ = none) :
    logAppend be s2 ev = ExecResult.undefinedBehavior nullStatsMsg := by
  unfold logAppend
  rw [hl, ho]
  rfl

/-! ### The claims -/

/-- Claim C1: the claim states that an `update` made while logging is
enabled but no strategy is configured safely skips the stats/error append.
The code does the opposite: reaching the logging branch with
`outlier_removal_` null, it reads `outlier_removal_->getRejectionStats()`
through the null pointer. Starting from a solver constructed with method
`NONE`, enabling logging and submitting one odometry batch drives `update`
into exactly that dereference. -/
theorem claim_C1_logging_without_strategy_dereferences_null :
    ∃ s0 : RobustSolver,
      construct testFactory pNone = ExecResult.ok s0 [] ∧
      s0.outlier_removal_ = none ∧
      update testBackend [odomF] [kv] (enableLogging "run" s0) =
        ExecResult.undefinedBehavior nullStatsMsg := by
  exact ⟨_, rfl, rfl, rfl⟩

/-- Claim C6: the removal step of both `removeLastLoopClosure` overloads
leaves the value assignment untouched — with a strategy the call receives
only `nfg_`, and without one `removeLastFactor` acts on factors only; values
change only through the subsequent re-optimization. -/
theorem claim_C6_removal_preserves_values (p1 p2 : Char) (s : RobustSolver) :
    (removalPhaseScoped p1 p2 s).2.values_ = s.values_ ∧
    (removalPhase s).2.values_ = s.values_ := by
  unfold removalPhaseScoped removalPhase
  cases h : s.outlier_removal_ <;> simp

/-- Claim C7: an out-of-enumeration outlier-removal method makes
construction terminate fatally with a diagnostic; a solver mode outside
`{LM, GN}` makes `optimize` terminate fatally with a diagnostic; method
`NONE` completes construction with no strategy instantiated. -/
theorem claim_C7_fatal_configuration (fac : StrategyFactory)
    (params : RobustSolverParams) (be : Backend) (s : RobustSolver) :
    (params.outlierRemovalMethod = OutlierRemovalMethod.UNKNOWN →
      construct fac params = ExecResult.fatalExit "Undefined outlier removal method") ∧
    (params.outlierRemovalMethod = OutlierRemovalMethod.NONE →
      ∃ s0 ev, construct fac params = ExecResult.ok s0 ev ∧
        s0.outlier_removal_ = none) ∧
    (s.solver_type_ ≠ Solver.LM → s.solver_type_ ≠ Solver.GN →
      optimize be s = ExecResult.fatalExit "Unsupported Solver") := by
  refine ⟨?_, ?_, ?_⟩
  · intro h
    unfold construct
    rw [h]
  · intro h
    unfold construct
    rw [h]
    cases params.verbosity
    · exact ⟨_, _, rfl, rfl⟩
    · exact ⟨_, _, rfl, rfl⟩
    · exact ⟨_, _, rfl, rfl⟩
    · exact ⟨_, _, rfl, rfl⟩
  · intro h1 h2
    unfold optimize
    rw [if_neg h1, if_neg h2]

/-- Witness for C7 at concrete inputs: an unknown method is fatal, `NONE`
yields a strategy-free solver, and a Dogleg-mode `optimize` is fatal. -/
theorem claim_C7_witness :
    construct testFactory pUnknownMethod =
      ExecResult.fatalExit "Undefined outlier removal method" ∧
    (∃ s0 ev, construct testFactory pNone = ExecResult.ok s0 ev ∧
      s0.outlier_removal_ = none) ∧
    optimize testBackend sDogleg = ExecResult.fatalExit "Unsupported Solver" :=
  ⟨(claim_C7_fatal_configuration testFactory pUnknownMethod testBackend sDogleg).1 rfl,
   (claim_C7_fatal_configuration testFactory pNone testBackend sDogleg).2.1 rfl,
   (claim_C7_fatal_configuration testFactory pNone testBackend sDogleg).2.2
     (by decide) (by decide)⟩

/-- Claim C9: the claim states that an unrecognized verbosity behaves
exactly as the default (`UPDATE`) verbosity, in which the strategy's
diagnostics are suppressed. The code's `default:` branch only logs
"Automatically setting to UPDATE" and omits the `outlier_removal_->setQuiet()`
call the `UPDATE` branch performs, so with a PCM2D strategy configured the
two constructions differ: the strategy stays non-quiet. -/
theorem claim_C9_unknown_verbosity_differs_from_update :
    ∃ s1 s2 : RobustSolver,
      construct testFactory pPcmUnknownVerb =
        ExecResult.ok s1
          [Event.warned "Unrecognized verbosity. Automatically setting to UPDATE."] ∧
      construct testFactory pPcmUpdateVerb = ExecResult.ok s2 [] ∧
      (∃ o1, s1.outlier_removal_ = some o1 ∧ o1.quiet = false) ∧
      (∃ o2, s2.outlier_removal_ = some o2 ∧ o2.quiet = true) := by
  exact ⟨_, _, rfl, rfl, ⟨_, rfl, rfl⟩, ⟨_, rfl, rfl⟩⟩

/-- Claim C2: on every successful `update`, the should-optimize boolean is
the configured strategy's returned boolean (or the no-strategy admission
path's boolean); the optimizer backend runs exactly when that boolean is
set; and when it runs, its result is the value assignment `update` returns.
The final conjunct pins down what a backend run is: the dispatched
optimizer's output replacing `values_`. -/
theorem claim_C2_update_optimize_dispatch (be : Backend) (factors : List Factor)
    (values : Values) (s s' : RobustSolver) (ev : List Event)
    (h : update be factors values s = ExecResult.ok s' ev) :
    (Event.optimized ∈ ev ↔ (admission factors values s).1 = true) ∧
    ((admission factors values s).1 = true →
      ∃ s2 ev2, optimize be (admission factors values s).2 = ExecResult.ok s2 ev2 ∧
        s'.values_ = s2.values_ ∧ s'.nfg_ = s2.nfg_) ∧
    ((admission factors values s).1 = false →
      s'.values_ = (admission factors values s).2.values_) ∧
    (∀ orm, s.outlier_removal_ = some orm →
      (admission factors values s).1 =
        (orm.removeOutliersFn orm.internal factors values s.nfg_ s.values_).1) ∧
    (s.outlier_removal_ = none →
      (admission factors values s).1 =
        (addAndCheckIfOptimize factors values s.nfg_ s.values_).1) ∧
    (∀ t t' ev', optimize be t = ExecResult.ok t' ev' →
      (t.solver_type_ = Solver.LM ∧ t'.values_ = be.lmOptimize t.nfg_ t.values_) ∨
      (t.solver_type_ = Solver.GN ∧ t'.values_ = be.gnOptimize t.nfg_ t.values_)) := by
  have hdel : ∀ orm, s.outlier_removal_ = some orm →
      (admission factors values s).1 =
        (orm.removeOutliersFn orm.internal factors values s.nfg_ s.values_).1 := by
    intro orm horm
    unfold admission
    rw [horm]
  have hnone : s.outlier_removal_ = none →
      (admission factors values s).1 =
        (addAndCheckIfOptimize factors values s.nfg_ s.values_).1 := by
    intro horm
    unfold admission
    rw [horm]
  have hback : ∀ t t' ev', optimize be t = ExecResult.ok t' ev' →
      (t.solver_type_ = Solver.LM ∧ t'.values_ = be.lmOptimize t.nfg_ t.values_) ∨
      (t.solver_type_ = Solver.GN ∧ t'.values_ = be.gnOptimize t.nfg_ t.values_) := by
    intro t t' ev' h'
    rcases (optimize_ok be t t' ev' h').2.2.2.2.2.2 with h'' | h''
    · exact Or.inl h''
    · exact Or.inr h''
  have key : (Event.optimized ∈ ev ↔ (admission factors values s).1 = true) ∧
      ((admission factors values s).1 = true →
        ∃ s2 ev2, optimize be (admission factors values s).2 = ExecResult.ok s2 ev2 ∧
          s'.values_ = s2.values_ ∧ s'.nfg_ = s2.nfg_) ∧
      ((admission factors values s).1 = false →
        s'.values_ = (admission factors values s).2.values_) := by
    unfold update at h
    cases hb : (admission factors values s).1
    · rw [hb] at h
      simp only [Bool.false_eq_true, if_false] at h
      have hl := logAppend_ok be _ s' _ ev h
      refine ⟨?_, ?_, ?_⟩
      · rw [hl.1]
        simp
      · intro hc
        cases hc
      · intro _
        exact hl.2.1
    · rw [hb] at h
      simp only [if_true] at h
      rcases ho : optimize be (admission factors values s).2 with ⟨s2, ev2⟩ | d | d <;>
        rw [ho] at h
      · have hl := logAppend_ok be s2 s' ev2 ev h
        have hopt := optimize_ok be _ s2 ev2 ho
        refine ⟨?_, ?_, ?_⟩
        · rw [hl.1]
          simp [hopt.1]
        · intro _
          exact ⟨s2, ev2, rfl, hl.2.1, hl.2.2.1⟩
        · intro hc
          cases hc
      · simp at h
      · simp at h
  exact ⟨key.1, key.2.1, key.2.2, hdel, hnone, hback⟩

/-- Witness for C2: a strategy-configured solver ingesting one loop-closure
factor; the strategy requests optimization, LM runs, and its result is the
returned value assignment. -/
theorem claim_C2_witness :
    ∃ s' ev, update testBackend [lcF] [kv] solverStrat = ExecResult.ok s' ev ∧
      ((Event.optimized ∈ ev ↔ (admission [lcF] [kv] solverStrat).1 = true) ∧
       ((admission [lcF] [kv] solverStrat).1 = true →
         ∃ s2 ev2, optimize testBackend (admission [lcF] [kv] solverStrat).2 =
             ExecResult.ok s2 ev2 ∧
           s'.values_ = s2.values_ ∧ s'.nfg_ = s2.nfg_) ∧
       ((admission [lcF] [kv] solverStrat).1 = false →
         s'.values_ = (admission [lcF] [kv] solverStrat).2.values_) ∧
       (∀ orm, solverStrat.outlier_removal_ = some orm →
         (admission [lcF] [kv] solverStrat).1 =
           (orm.removeOutliersFn orm.internal [lcF] [kv] solverStrat.nfg_
             solverStrat.values_).1) ∧
       (solverStrat.outlier_removal_ = none →
         (admission [lcF] [kv] solverStrat).1 =
           (addAndCheckIfOptimize [lcF] [kv] solverStrat.nfg_ solverStrat.values_).1) ∧
       (∀ t t' ev', optimize testBackend t = ExecResult.ok t' ev' →
         (t.solver_type_ = Solver.LM ∧
           t'.values_ = testBackend.lmOptimize t.nfg_ t.values_) ∨
         (t.solver_type_ = Solver.GN ∧
           t'.values_ = testBackend.gnOptimize t.nfg_ t.values_))) :=
  ⟨_, _, rfl,
   claim_C2_update_optimize_dispatch testBackend [lcF] [kv] solverStrat _ _ rfl⟩

/-- Claim C3: `forceUpdate` runs the same admission step as `update` (the
shared `admission`), then invokes the optimizer unconditionally — the
equation with `optimize` holds with no condition on the admission boolean —
and never writes a stats or error log line, even when logging is enabled. -/
theorem claim_C3_forceUpdate_unconditional (be : Backend) (factors : List Factor)
    (values : Values) (s s' : RobustSolver) (ev : List Event)
    (h : forceUpdate be factors values s = ExecResult.ok s' ev) :
    optimize be (admission factors values s).2 = ExecResult.ok s' ev ∧
    Event.optimized ∈ ev ∧
    s'.logFile = s.logFile ∧ s'.errorFile = s.errorFile := by
  have h0 : optimize be (admission factors values s).2 = ExecResult.ok s' ev := h
  have hopt := optimize_ok be _ s' ev h0
  have hfr := admission_frame factors values s
  refine ⟨h0, hopt.1, ?_, ?_⟩
  · rw [hopt.2.2.2.1, hfr.2.1]
  · rw [hopt.2.2.2.2.1, hfr.2.2.1]

/-- Witness for C3: a logging-enabled, strategy-free solver ingesting one
odometry factor — the admission boolean is false, yet the optimizer runs
and no log line is appended. -/
theorem claim_C3_witness :
    ∃ s' ev,
      forceUpdate testBackend [odomF] [kv] (enableLogging "run" solverNone) =
        ExecResult.ok s' ev ∧
      (optimize testBackend
          (admission [odomF] [kv] (enableLogging "run" solverNone)).2 =
        ExecResult.ok s' ev ∧
       Event.optimized ∈ ev ∧
       s'.logFile = (enableLogging "run" solverNone).logFile ∧
       s'.errorFile = (enableLogging "run" solverNone).errorFile) :=
  ⟨_, _, rfl,
   claim_C3_forceUpdate_unconditional testBackend [odomF] [kv]
     (enableLogging "run" solverNone) _ _ rfl⟩

/-- Claim C4: in both `removeLastLoopClosure` overloads, removal is
delegated to the strategy when one is configured; without a strategy, the
scoped overload ignores its scope and removes the single most recently
appended factor of the whole graph (empty result on an empty graph); every
successful call records an optimizer run and returns the removal step's
removed factor. -/
theorem claim_C4_removeLastLoopClosure_paths (be : Backend) (p1 p2 : Char)
    (s : RobustSolver) :
    (∀ orm, s.outlier_removal_ = some orm →
      (removalPhaseScoped p1 p2 s).1 =
        (orm.removeLastLoopClosureScopedFn orm.internal
          (ObservationId.mk p1 p2) s.nfg_).1 ∧
      (removalPhaseScoped p1 p2 s).2.nfg_ =
        (orm.removeLastLoopClosureScopedFn orm.internal
          (ObservationId.mk p1 p2) s.nfg_).2.1 ∧
      (removalPhase s).1 = (orm.removeLastLoopClosureFn orm.internal s.nfg_).1) ∧
    (s.outlier_removal_ = none →
      (removalPhaseScoped p1 p2 s).1 = (removeLastFactor s.nfg_).1 ∧
      (removalPhaseScoped p1 p2 s).2.nfg_ = (removeLastFactor s.nfg_).2 ∧
      removalPhaseScoped p1 p2 s = removalPhase s ∧
      (s.nfg_ = [] → (removalPhaseScoped p1 p2 s).1 = none)) ∧
    (∀ r s' ev, removeLastLoopClosureScoped be p1 p2 s = ExecResult.ok (r, s') ev →
      Event.optimized ∈ ev ∧ r = (removalPhaseScoped p1 p2 s).1) ∧
    (∀ r s' ev, removeLastLoopClosure be s = ExecResult.ok (r, s') ev →
      Event.optimized ∈ ev ∧ r = (removalPhase s).1) := by
  refine ⟨?_, ?_, ?_, ?_⟩
  · intro orm horm
    unfold removalPhaseScoped removalPhase
    rw [horm]
    exact ⟨rfl, rfl, rfl⟩
  · intro horm
    unfold removalPhaseScoped removalPhase
    rw [horm]
    refine ⟨rfl, rfl, rfl, ?_⟩
    intro hnil
    rw [hnil]
    rfl
  · intro r s' ev h
    unfold removeLastLoopClosureScoped at h
    rcases ho : optimize be (removalPhaseScoped p1 p2 s).2 with ⟨s2, ev2⟩ | d | d <;>
      rw [ho] at h
    · have hopt := optimize_ok be _ s2 ev2 ho
      simp only [ExecResult.ok.injEq, Prod.mk.injEq] at h
      refine ⟨?_, h.1.1.symm⟩
      rw [← h.2]
      exact hopt.1
    · simp at h
    · simp at h
  · intro r s' ev h
    unfold removeLastLoopClosure at h
    rcases ho : optimize be (removalPhase s).2 with ⟨s2, ev2⟩ | d | d <;>
      rw [ho] at h
    · have hopt := optimize_ok be _ s2 ev2 ho
      simp only [ExecResult.ok.injEq, Prod.mk.injEq] at h
      refine ⟨?_, h.1.1.symm⟩
      rw [← h.2]
      exact hopt.1
    · simp at h
    · simp at h

/-- Witness for C4: on the strategy-free solver holding one factor, the
scoped removal at scope (a, b) removes that last factor, agrees with the
unscoped removal, and the full call optimizes and returns it. -/
theorem claim_C4_witness :
    ((removalPhaseScoped 'a' 'b' solverNone).1 = (removeLastFactor solverNone.nfg_).1 ∧
     removalPhaseScoped 'a' 'b' solverNone = removalPhase solverNone) ∧
    (∃ r s' ev,
      removeLastLoopClosureScoped testBackend 'a' 'b' solverNone =
        ExecResult.ok (r, s') ev ∧
      Event.optimized ∈ ev ∧ r = (removalPhaseScoped 'a' 'b' solverNone).1) := by
  have h := claim_C4_removeLastLoopClosure_paths testBackend 'a' 'b' solverNone
  refine ⟨⟨(h.2.1 rfl).1, (h.2.1 rfl).2.2.1⟩, ⟨_, _, _, rfl, ?_⟩⟩
  exact h.2.2.1 _ _ _ rfl

/-- Claim C5: with no strategy configured, `ignorePrefix` and `revivePrefix`
leave the factor collection unchanged, emit their diagnostic warning, still
run the optimizer, and return normally; `getIgnoredPrefixes` returns the
empty list with the same diagnostic and no state change. -/
theorem claim_C5_prefix_ops_without_strategy (be : Backend) (p : Char)
    (s : RobustSolver) (h : s.outlier_removal_ = none)
    (hs : s.solver_type_ = Solver.LM ∨ s.solver_type_ = Solver.GN) :
    (∃ s' ev, ignorePrefix be p s = ExecResult.ok s' ev ∧
      s'.nfg_ = s.nfg_ ∧ Event.warned ignorePrefixWarning ∈ ev ∧
      Event.optimized ∈ ev) ∧
    (∃ s' ev, revivePrefix be p s = ExecResult.ok s' ev ∧
      s'.nfg_ = s.nfg_ ∧ Event.warned revivePrefixWarning ∈ ev ∧
      Event.optimized ∈ ev) ∧
    getIgnoredPrefixes s = ([], s, [Event.warned revivePrefixWarning]) := by
  have hopt : ∃ t ev0, optimize be s = ExecResult.ok t ev0 ∧ t.nfg_ = s.nfg_ ∧
      Event.optimized ∈ ev0 := by
    rcases hs with hs | hs
    · refine ⟨{ s with values_ := be.lmOptimize s.nfg_ s.values_ },
        (if s.debug_ then [Event.info "Running LM"] else []) ++ [Event.optimized],
        ?_, rfl, by simp⟩
      unfold optimize
      rw [hs]
      simp
    · refine ⟨{ s with values_ := be.gnOptimize s.nfg_ s.values_ },
        (if s.debug_ then [Event.info "Running GN"] else []) ++ [Event.optimized],
        ?_, rfl, by simp⟩
      unfold optimize
      rw [hs]
      simp
  rcases hopt with ⟨t, ev0, ho, hn, hm⟩
  refine ⟨⟨t, Event.warned ignorePrefixWarning :: ev0, ?_, hn, by simp, by simp [hm]⟩,
          ⟨t, Event.warned revivePrefixWarning :: ev0, ?_, hn, by simp, by simp [hm]⟩,
          ?_⟩
  · unfold ignorePrefix
    rw [h, ho]
  · unfold revivePrefix
    rw [h, ho]
  · unfold getIgnoredPrefixes
    rw [h]

/-- Witness for C5 on the concrete strategy-free LM solver. -/
theorem claim_C5_witness :
    (∃ s' ev, ignorePrefix testBackend 'a' solverNone = ExecResult.ok s' ev ∧
      s'.nfg_ = solverNone.nfg_ ∧ Event.warned ignorePrefixWarning ∈ ev ∧
      Event.optimized ∈ ev) ∧
    (∃ s' ev, revivePrefix testBackend 'a' solverNone = ExecResult.ok s' ev ∧
      s'.nfg_ = solverNone.nfg_ ∧ Event.warned revivePrefixWarning ∈ ev ∧
      Event.optimized ∈ ev) ∧
    getIgnoredPrefixes solverNone =
      ([], solverNone, [Event.warned revivePrefixWarning]) :=
  claim_C5_prefix_ops_without_strategy testBackend 'a' solverNone rfl (Or.inl rfl)

/-- Claim C8: `enableLogging` truncates both files to exactly one header
line each and switches logging on; thereafter every `update` that completes
with logging on appends exactly one data line of eight numeric fields (the
seven rejection counters of the post-admission strategy, then the current
total graph error) to `log.txt` and one line of that update's
consistency-error scalars to `error.txt`. -/
theorem claim_C8_logging_behavior (be : Backend) (path : String)
    (factors : List Factor) (values : Values) (s s' : RobustSolver)
    (ev : List Event) :
    ((enableLogging path s).log_ = true ∧
     (enableLogging path s).logFile = [FileLine.headerText logHeaderText] ∧
     (enableLogging path s).errorFile = [FileLine.headerText errHeaderText]) ∧
    (s.log_ = true → update be factors values s = ExecResult.ok s' ev →
      ∃ orm2 : OutlierRemoval,
        (admission factors values s).2.outlier_removal_ = some orm2 ∧
        s'.logFile = s.logFile ++
          [FileLine.logData (logLineFields (orm2.getRejectionStatsFn orm2.internal)
            (be.graphError s'.nfg_ s'.values_))] ∧
        (logLineFields (orm2.getRejectionStatsFn orm2.internal)
          (be.graphError s'.nfg_ s'.values_)).length = 8 ∧
        s'.errorFile = s.errorFile ++
          [FileLine.errData (orm2.getRejectionStatsFn orm2.internal).consistency_error]) := by
  refine ⟨⟨rfl, rfl, rfl⟩, ?_⟩
  intro hl h
  have hfr := admission_frame factors values s
  unfold update at h
  cases hb : (admission factors values s).1 <;> rw [hb] at h
  · simp only [Bool.false_eq_true, if_false] at h
    rcases horm : (admission factors values s).2.outlier_removal_ with _ | orm2
    · have hcontra := (logAppend_log_none be (admission factors values s).2 []
        (hfr.1.trans hl) horm).symm.trans h
      simp at hcontra
    · have h2 := (logAppend_log_some be (admission factors values s).2 [] orm2
        (hfr.1.trans hl) horm).symm.trans h
      simp only [ExecResult.ok.injEq] at h2
      obtain ⟨hrec, hev⟩ := h2
      subst hrec
      exact ⟨orm2, rfl, congrArg (fun l => l ++ _) hfr.2.1, rfl,
        congrArg (fun l => l ++ _) hfr.2.2.1⟩
  · simp only [if_true] at h
    rcases ho : optimize be (admission factors values s).2 with ⟨s2, ev2⟩ | d | d <;>
      rw [ho] at h
    · have hopt := optimize_ok be _ s2 ev2 ho
      have hlog2 : s2.log_ = true := hopt.2.2.1.trans (hfr.1.trans hl)
      rcases horm : s2.outlier_removal_ with _ | orm2
      · have hcontra := (logAppend_log_none be s2 ev2 hlog2 horm).symm.trans h
        simp at hcontra
      · have h2 := (logAppend_log_some be s2 ev2 orm2 hlog2 horm).symm.trans h
        simp only [ExecResult.ok.injEq] at h2
        obtain ⟨hrec, hev⟩ := h2
        subst hrec
        refine ⟨orm2, hopt.2.2.2.2.2.1.symm.trans horm, ?_, rfl, ?_⟩
        · exact congrArg (fun l => l ++ _) (hopt.2.2.2.1.trans hfr.2.1)
        · exact congrArg (fun l => l ++ _) (hopt.2.2.2.2.1.trans hfr.2.2.1)
    · simp at h
    · simp at h

/-- Witness for C8: enable logging on the strategy-configured solver, then
ingest one loop-closure factor; exactly one data line lands in each file. -/
theorem claim_C8_witness :
    ∃ s' ev,
      update testBackend [lcF] [kv] (enableLogging "p" solverStrat) =
        ExecResult.ok s' ev ∧
      ∃ orm2 : OutlierRemoval,
        (admission [lcF] [kv] (enableLogging "p" solverStrat)).2.outlier_removal_ =
          some orm2 ∧
        s'.logFile = (enableLogging "p" solverStrat).logFile ++
          [FileLine.logData (logLineFields (orm2.getRejectionStatsFn orm2.internal)
            (testBackend.graphError s'.nfg_ s'.values_))] ∧
        (logLineFields (orm2.getRejectionStatsFn orm2.internal)
          (testBackend.graphError s'.nfg_ s'.values_)).length = 8 ∧
        s'.errorFile = (enableLogging "p" solverStrat).errorFile ++
          [FileLine.errData (orm2.getRejectionStatsFn orm2.internal).consistency_error] := by
  refine ⟨_, _, rfl, ?_⟩
  exact (claim_C8_logging_behavior testBackend "p" [lcF] [kv]
    (enableLogging "p" solverStrat) _ _).2 rfl rfl

/-- Claim C10: `getIgnoredPrefixes` is a pure query — it leaves the factor
collection and value assignment unchanged and records no optimizer run —
and returns the empty list without a strategy; by contrast, `ignorePrefix`
and `revivePrefix` always record an optimizer run on success. -/
theorem claim_C10_getIgnoredPrefixes_pure (be : Backend) (p : Char)
    (s : RobustSolver) :
    (getIgnoredPrefixes s).2.1.nfg_ = s.nfg_ ∧
    (getIgnoredPrefixes s).2.1.values_ = s.values_ ∧
    Event.optimized ∉ (getIgnoredPrefixes s).2.2 ∧
    (s.outlier_removal_ = none → (getIgnoredPrefixes s).1 = []) ∧
    (∀ s' ev, ignorePrefix be p s = ExecResult.ok s' ev → Event.optimized ∈ ev) ∧
    (∀ s' ev, revivePrefix be p s = ExecResult.ok s' ev → Event.optimized ∈ ev) := by
  have hq : (getIgnoredPrefixes s).2.1.nfg_ = s.nfg_ ∧
      (getIgnoredPrefixes s).2.1.values_ = s.values_ ∧
      Event.optimized ∉ (getIgnoredPrefixes s).2.2 ∧
      (s.outlier_removal_ = none → (getIgnoredPrefixes s).1 = []) := by
    unfold getIgnoredPrefixes
    cases horm : s.outlier_removal_ <;> simp
  have hig : ∀ s' ev, ignorePrefix be p s = ExecResult.ok s' ev →
      Event.optimized ∈ ev := by
    intro s' ev h
    unfold ignorePrefix at h
    rcases horm : s.outlier_removal_ with _ | orm <;> rw [horm] at h
    · rcases ho : optimize be s with ⟨s2, ev2⟩ | d | d <;> rw [ho] at h
      · simp only [ExecResult.ok.injEq] at h
        rw [← h.2]
        exact List.mem_cons_of_mem _ (optimize_ok be s s2 ev2 ho).1
      · simp at h
      · simp at h
    · exact (optimize_ok be _ s' ev h).1
  have hrev : ∀ s' ev, revivePrefix be p s = ExecResult.ok s' ev →
      Event.optimized ∈ ev := by
    intro s' ev h
    unfold revivePrefix at h
    rcases horm : s.outlier_removal_ with _ | orm <;> rw [horm] at h
    · rcases ho : optimize be s with ⟨s2, ev2⟩ | d | d <;> rw [ho] at h
      · simp only [ExecResult.ok.injEq] at h
        rw [← h.2]
        exact List.mem_cons_of_mem _ (optimize_ok be s s2 ev2 ho).1
      · simp at h
      · simp at h
    · exact (optimize_ok be _ s' ev h).1
  exact ⟨hq.1, hq.2.1, hq.2.2.1, hq.2.2.2, hig, hrev⟩

/-- Witness for C10 on the concrete strategy-free solver: the query changes
nothing and returns the empty list, while `ignorePrefix` on the same state
does record an optimizer run. -/
theorem claim_C10_witness :
    (getIgnoredPrefixes solverNone).2.1.nfg_ = solverNone.nfg_ ∧
    (getIgnoredPrefixes solverNone).1 = [] ∧
    (∃ s' ev, ignorePrefix testBackend 'a' solverNone = ExecResult.ok s' ev ∧
      Event.optimized ∈ ev) := by
  have h := claim_C10_getIgnoredPrefixes_pure testBackend 'a' solverNone
  exact ⟨h.1, h.2.2.2.1 rfl, ⟨_, _, rfl, h.2.2.2.2.1 _ _ rfl⟩⟩

end KimeraRpgo
